import Mathlib

/-!
Verification of the realtime presence registry and call-signaling relay of the
chat_central_server repository.

Two socket layers exist in the sources:
  * the messages service (`UserConnections` class plus its `io.on` handlers),
    which tracks per-connection call sessions; and
  * the users service (`onlineUsers` map plus its `io.on` handlers), which
    keeps only a user-to-socket map and never tracks call sessions.

JavaScript `Map` objects are embedded as association lists in insertion
order: `set` replaces the value of an existing key in place and appends a
fresh key at the end, `get` finds the first matching key, `delete` removes
the key.  A JS `Map` never holds a duplicate key, so lists produced by the
operations keep their keys `Nodup`.

`socket.emit(name, payload)` calls are embedded as values of an emission
type collected in the order the code performs them; the free-text `message`
string attached to the `callFailed` payload is display text and is omitted
(claims speak only about its `error` code).
-/

section MapModel

variable {κ : Type} {α : Type} [DecidableEq κ]

/-- `Map.get`: first entry with the key, if any. -/
def mapGet : List (κ × α) → κ → Option α
  | [], _ => none
  | e :: rest, k => if e.1 = k then some e.2 else mapGet rest k

/-- `Map.set`: replace the value at an existing key in place, else append. -/
def mapSet : List (κ × α) → κ → α → List (κ × α)
  | [], k, v => [(k, v)]
  | e :: rest, k, v => if e.1 = k then (k, v) :: rest else e :: mapSet rest k v

/-- `Map.delete`: drop the entry with the key. -/
def mapDelete : List (κ × α) → κ → List (κ × α)
  | [], _ => []
  | e :: rest, k => if e.1 = k then mapDelete rest k else e :: mapDelete rest k

@[simp] theorem mapGet_nil (k : κ) : mapGet ([] : List (κ × α)) k = none := rfl

theorem mapGet_set_self (m : List (κ × α)) (k : κ) (v : α) :
    mapGet (mapSet m k v) k = some v := by
  induction m with
  | nil => simp [mapSet, mapGet]
  | cons e rest ih =>
    by_cases h : e.1 = k
    · simp [mapSet, mapGet, h]
    · simp [mapSet, mapGet, h, ih]

theorem mapGet_set_ne (m : List (κ × α)) (k k' : κ) (v : α) (h : k' ≠ k) :
    mapGet (mapSet m k v) k' = mapGet m k' := by
  induction m with
  | nil => simp [mapSet, mapGet, Ne.symm h]
  | cons e rest ih =>
    by_cases he : e.1 = k
    · subst he
      have h' : ¬ (e.1 = k') := fun hkk => h hkk.symm
      simp [mapSet, mapGet, h']
    · by_cases he' : e.1 = k'
      · simp [mapSet, mapGet, he, he', h]
      · simp [mapSet, mapGet, he, he', ih]

theorem mapGet_delete_self (m : List (κ × α)) (k : κ) :
    mapGet (mapDelete m k) k = none := by
  induction m with
  | nil => simp [mapDelete]
  | cons e rest ih =>
    by_cases h : e.1 = k
    · simp [mapDelete, h, ih]
    · simp [mapDelete, mapGet, h, ih]

theorem mapGet_delete_ne (m : List (κ × α)) (k k' : κ) (h : k' ≠ k) :
    mapGet (mapDelete m k) k' = mapGet m k' := by
  induction m with
  | nil => simp [mapDelete]
  | cons e rest ih =>
    by_cases he : e.1 = k
    · subst he
      have h' : ¬ (e.1 = k') := fun hkk => h hkk.symm
      simp [mapDelete, mapGet, h', ih]
    · by_cases he' : e.1 = k'
      · simp [mapDelete, mapGet, he, he', h]
      · simp [mapDelete, mapGet, he, he', ih]

theorem mapDelete_of_not_mem (m : List (κ × α)) (k : κ)
    (h : k ∉ m.map Prod.fst) : mapDelete m k = m := by
  induction m with
  | nil => rfl
  | cons e rest ih =>
    simp only [List.map_cons, List.mem_cons] at h
    push_neg at h
    have he : ¬ (e.1 = k) := fun hk => h.1 hk.symm
    simp [mapDelete, he, ih h.2]

theorem mapSet_keys (m : List (κ × α)) (k : κ) (v : α) :
    (mapSet m k v).map Prod.fst =
      if k ∈ m.map Prod.fst then m.map Prod.fst else m.map Prod.fst ++ [k] := by
  induction m with
  | nil => simp [mapSet]
  | cons e rest ih =>
    by_cases he : e.1 = k
    · subst he
      simp [mapSet]
    · have hne : ¬ (k = e.1) := fun hk => he hk.symm
      by_cases hmem : k ∈ rest.map Prod.fst
      · simp [mapSet, he, ih, hmem, hne]
      · simp [mapSet, he, ih, hmem, hne]

theorem mapSet_keys_nodup (m : List (κ × α)) (k : κ) (v : α)
    (h : (m.map Prod.fst).Nodup) : ((mapSet m k v).map Prod.fst).Nodup := by
  rw [mapSet_keys]
  by_cases hmem : k ∈ m.map Prod.fst
  · simpa [hmem] using h
  · simp only [hmem, if_neg, ite_false]
    exact List.Nodup.append h (List.nodup_singleton k) (by simpa using hmem)

/-- Number of entries stored under a given key. -/
def countKey (m : List (κ × α)) (k : κ) : Nat :=
  (m.filter (fun e => decide (e.1 = k))).length

theorem countKey_of_not_mem (m : List (κ × α)) (k : κ)
    (h : k ∉ m.map Prod.fst) : countKey m k = 0 := by
  induction m with
  | nil => rfl
  | cons e rest ih =>
    simp only [List.map_cons, List.mem_cons] at h
    push_neg at h
    have he : ¬ (e.1 = k) := fun hk => h.1 hk.symm
    simpa [countKey, List.filter, he] using ih h.2

theorem countKey_set (m : List (κ × α)) (k : κ) (v : α)
    (h : (m.map Prod.fst).Nodup) : countKey (mapSet m k v) k = 1 := by
  induction m with
  | nil => simp [mapSet, countKey, List.filter]
  | cons e rest ih =>
    simp only [List.map_cons, List.nodup_cons] at h
    by_cases he : e.1 = k
    · subst he
      have : countKey rest e.1 = 0 := countKey_of_not_mem rest e.1 h.1
      simpa [mapSet, countKey, List.filter] using this
    · simpa [mapSet, countKey, List.filter, he] using ih h.2

end MapModel

/-! ## Data model of the messages service

`UserConnections` stores, per user id, an object `{ socket, timestamp, calls }`
where `calls` maps a call id to `{ otherParticipantId, type, startTime }`.
User ids and socket handles are opaque numbers, call ids are strings. -/

/-- Call record stored by `addCall`: `{ otherParticipantId, type, startTime }`. -/
structure CallData where
  otherParticipantId : Nat
  type : String
  startTime : Nat
  deriving Repr, DecidableEq

/-- Per-user connection record: `{ socket, timestamp, calls }`. -/
structure Conn where
  socket : Nat
  timestamp : Nat
  calls : List (String × CallData)
  deriving Repr, DecidableEq

/-- The `UserConnections` registry: the `connections` map. -/
structure UserConnections where
  connections : List (Nat × Conn)
  deriving Repr, DecidableEq

/-- Payloads the messages service emits.  The free-text `message` field of
`callFailed` is omitted (display text only). -/
inductive Payload where
  | callEnded (fromId : Nat) (reason : String)
  | callIncoming (callId : String) (signal : String) (fromId : Nat) (callType : String)
  | callFailed (error : String)
  | callAnswered (signal : String) (fromId : Nat)
  | callCandidate (cand : String) (fromId : Nat)
  | newMessage (msg : String)
  deriving Repr, DecidableEq

/-- One `socket.emit` to the socket handle `target`. -/
structure Emit where
  target : Nat
  payload : Payload
  deriving Repr, DecidableEq

/-- `UserConnections.add(userId, socket)`: store a fresh record (single-slot
overwrite for an already-registered user). -/
def UserConnections.add (uc : UserConnections) (userId : Nat) (socket : Nat)
    (now : Nat) : UserConnections × Conn :=
  let userConnection : Conn := { socket := socket, timestamp := now, calls := [] }
  ({ connections := mapSet uc.connections userId userConnection }, userConnection)

/-- `UserConnections.get(userId)`. -/
def UserConnections.get (uc : UserConnections) (userId : Nat) : Option Conn :=
  mapGet uc.connections userId

/-- `UserConnections.addCall(userId, callId, data)`. -/
def UserConnections.addCall (uc : UserConnections) (userId : Nat)
    (callId : String) (data : CallData) : UserConnections :=
  match mapGet uc.connections userId with
  | none => uc
  | some conn =>
      { connections := mapSet uc.connections userId
          { conn with calls := mapSet conn.calls callId data } }

/-- `UserConnections.endCall(userId, callId)`: if the user holds the call,
notify the other participant (when connected) with `callEnded
{from: userId, reason: REMOTE_ENDED}` and drop the call from the user's set. -/
def UserConnections.endCall (uc : UserConnections) (userId : Nat)
    (callId : String) : UserConnections × List Emit :=
  match mapGet uc.connections userId with
  | none => (uc, [])
  | some conn =>
      match mapGet conn.calls callId with
      | none => (uc, [])
      | some callData =>
          let emits :=
            match mapGet uc.connections callData.otherParticipantId with
            | some otherParticipant =>
                [Emit.mk otherParticipant.socket
                  (Payload.callEnded userId "REMOTE_ENDED")]
            | none => []
          ({ connections := mapSet uc.connections userId
              { conn with calls := mapDelete conn.calls callId } }, emits)

/-- One step of the `connection.calls.forEach` loop inside `remove`. -/
def removeStep (userId : Nat) (acc : UserConnections × List Emit)
    (entry : String × CallData) : UserConnections × List Emit :=
  let s := UserConnections.endCall acc.1 userId entry.1
  (s.1, acc.2 ++ s.2)

/-- `UserConnections.remove(userId)`: end every call the connection holds,
then delete the entry.  The source iterates the live `calls` map with
`forEach`; since each `endCall` deletes exactly the entry being visited and
inserts nothing, iterating the snapshot of the entries is equivalent. -/
def UserConnections.remove (uc : UserConnections) (userId : Nat) :
    UserConnections × List Emit :=
  match mapGet uc.connections userId with
  | none => (uc, [])
  | some conn =>
      let r := conn.calls.foldl (removeStep userId) (uc, [])
      ({ connections := mapDelete r.1.connections userId }, r.2)

/-- Observer: the call session retrievable from the registry under a holder
and a call id (`get(userId)?.calls.get(callId)`). -/
def UserConnections.getCall (uc : UserConnections) (userId : Nat)
    (callId : String) : Option CallData :=
  match mapGet uc.connections userId with
  | none => none
  | some conn => mapGet conn.calls callId

/-! ## Socket handlers of the messages service

Each handler takes the registry, the authenticated sender
(`socket.user.id` and the sender's own socket handle), the event data, and
returns the updated registry together with the list of emissions. -/

/-- Data of the `callUser` event; `fromField` embeds the client-supplied
`data.from`. -/
structure CallUserData where
  userToCall : Nat
  callType : String
  signalData : String
  fromField : Nat
  deriving Repr, DecidableEq

/-- Data of the `answerCall` event; `toField` embeds `data.to`. -/
structure AnswerData where
  toField : Nat
  signal : String
  deriving Repr, DecidableEq

/-- Data of the `callCandidate` event. -/
structure CandidateData where
  toField : Nat
  cand : String
  deriving Repr, DecidableEq

/-- Data of the `endCall` event; `callId = none` embeds a missing/falsy
`data.callId`, `reason = none` a missing `data.reason`. -/
structure EndCallData where
  callId : Option String
  toField : Nat
  reason : Option String
  deriving Repr, DecidableEq

/-- The call id minted by `callUser`: `` `${socket.user.id}-${data.userToCall}-${Date.now()}` ``. -/
def mintCallId (senderId userToCall now : Nat) : String :=
  toString senderId ++ "-" ++ toString userToCall ++ "-" ++ toString now

/-- `socket.on('callUser')`. -/
def onCallUser (uc : UserConnections) (senderSocket senderId now : Nat)
    (data : CallUserData) : UserConnections × List Emit :=
  match mapGet uc.connections data.userToCall with
  | some targetConnection =>
      let callId := mintCallId senderId data.userToCall now
      let uc2 := uc.addCall senderId callId
        { otherParticipantId := data.userToCall
          type := data.callType
          startTime := now }
      (uc2, [Emit.mk targetConnection.socket
        (Payload.callIncoming callId data.signalData data.fromField data.callType)])
  | none =>
      (uc, [Emit.mk senderSocket (Payload.callFailed "USER_UNAVAILABLE")])

/-- `socket.on('answerCall')`: forward the answer to `data.to` with
`from = socket.user.id`; if the target is absent nothing happens. -/
def onAnswerCall (uc : UserConnections) (senderId : Nat) (data : AnswerData) :
    UserConnections × List Emit :=
  match mapGet uc.connections data.toField with
  | some targetConnection =>
      (uc, [Emit.mk targetConnection.socket
        (Payload.callAnswered data.signal senderId)])
  | none => (uc, [])

/-- `socket.on('callCandidate')`. -/
def onCallCandidate (uc : UserConnections) (senderId : Nat)
    (data : CandidateData) : UserConnections × List Emit :=
  match mapGet uc.connections data.toField with
  | some targetConnection =>
      (uc, [Emit.mk targetConnection.socket
        (Payload.callCandidate data.cand senderId)])
  | none => (uc, [])

/-- `socket.on('endCall')`: with a call id, defer to `endCall`; otherwise the
compatibility fallback emits `callEnded` to `data.to` directly. -/
def onEndCall (uc : UserConnections) (senderId : Nat) (data : EndCallData) :
    UserConnections × List Emit :=
  match data.callId with
  | some callId => uc.endCall senderId callId
  | none =>
      match mapGet uc.connections data.toField with
      | some targetConnection =>
          (uc, [Emit.mk targetConnection.socket
            (Payload.callEnded senderId (data.reason.getD "NORMAL"))])
      | none => (uc, [])

/-- `socket.on('sendMessage')`: `socket.broadcast.emit` reaches every
currently connected socket except the sender.  `sockets` is the transport
layer's list of connected socket handles. -/
def onSendMessage (sockets : List Nat) (senderSocket : Nat) (msg : String) :
    List Emit :=
  (sockets.filter (fun t => decide (t ≠ senderSocket))).map
    (fun t => Emit.mk t (Payload.newMessage msg))

/-- `socket.on('disconnect')` / `socket.on('error')`. -/
def onDisconnect (uc : UserConnections) (senderId : Nat) :
    UserConnections × List Emit :=
  uc.remove senderId

/-- The from-field of a messages-service payload, when it has one. -/
def emitFromId : Payload → Option Nat
  | Payload.callEnded f _ => some f
  | Payload.callIncoming _ _ f _ => some f
  | Payload.callFailed _ => none
  | Payload.callAnswered _ f => some f
  | Payload.callCandidate _ f => some f
  | Payload.newMessage _ => none

/-! ## The users service signaling layer

`onlineUsers` is a plain `Map` from user id to socket handle; its `callUser`,
`answerCall` and `iceCandidate` handlers never mutate the map (only the
`connection`/`disconnect` hooks do), so they are embedded as pure emission
functions over the map. -/

/-- Payloads the users service emits. -/
inductive UPayload where
  | incomingCall (fromId : Nat) (offer : String)
  | callAnswered (fromId : Nat) (answer : String)
  | iceCandidate (fromId : Nat) (cand : String)
  deriving Repr, DecidableEq

/-- One `socket.emit` of the users service. -/
structure UEmit where
  target : Nat
  payload : UPayload
  deriving Repr, DecidableEq

/-- Users service `socket.on('callUser')`: when the target is offline the
handler only logs — no failure notice is emitted to the caller. -/
def usersOnCallUser (onlineUsers : List (Nat × Nat)) (senderId : Nat)
    (targetUserId : Nat) (offer : String) : List UEmit :=
  match mapGet onlineUsers targetUserId with
  | some targetSocket => [UEmit.mk targetSocket (UPayload.incomingCall senderId offer)]
  | none => []

/-- Users service `socket.on('answerCall')`. -/
def usersOnAnswerCall (onlineUsers : List (Nat × Nat)) (senderId : Nat)
    (targetUserId : Nat) (answer : String) : List UEmit :=
  match mapGet onlineUsers targetUserId with
  | some targetSocket => [UEmit.mk targetSocket (UPayload.callAnswered senderId answer)]
  | none => []

/-- Users service `socket.on('iceCandidate')`. -/
def usersOnIceCandidate (onlineUsers : List (Nat × Nat)) (senderId : Nat)
    (targetUserId : Nat) (cand : String) : List UEmit :=
  match mapGet onlineUsers targetUserId with
  | some targetSocket => [UEmit.mk targetSocket (UPayload.iceCandidate senderId cand)]
  | none => []

/-! ## Example states used to instantiate the theorems -/

/-- Registry with user 1 (socket 10) holding calls with users 2 and 3. -/
def ucThree : UserConnections :=
  { connections :=
      [ (1, { socket := 10, timestamp := 0
              calls := [ ("c1", { otherParticipantId := 2, type := "video", startTime := 5 })
                       , ("c2", { otherParticipantId := 3, type := "audio", startTime := 6 }) ] })
      , (2, { socket := 20, timestamp := 0, calls := [] })
      , (3, { socket := 30, timestamp := 0, calls := [] }) ] }

/-- Registry with users 1 (socket 10) and 2 (socket 20), no calls. -/
def ucTwo : UserConnections :=
  { connections :=
      [ (1, { socket := 10, timestamp := 0, calls := [] })
      , (2, { socket := 20, timestamp := 0, calls := [] }) ] }

/-- Registry where user 1 (socket 10) holds one call with user 2 (socket 20). -/
def ucCall : UserConnections :=
  { connections :=
      [ (1, { socket := 10, timestamp := 0
              calls := [("1-2-100",
                { otherParticipantId := 2, type := "video", startTime := 100 })] })
      , (2, { socket := 20, timestamp := 0, calls := [] }) ] }

/-! ## Lemmas about endCall and the remove fold -/

theorem mapGet_mem {κ α : Type} [DecidableEq κ] (m : List (κ × α)) (k : κ)
    (v : α) (h : mapGet m k = some v) : (k, v) ∈ m := by
  induction m with
  | nil => simp [mapGet] at h
  | cons e rest ih =>
    by_cases he : e.1 = k
    · simp only [mapGet, he, if_pos] at h
      have : e = (k, v) := by
        cases e
        simp only [Option.some.injEq] at h
        simp_all
      rw [← this]
      exact List.mem_cons_self e rest
    · simp only [mapGet, he, if_neg, ite_false] at h
      exact List.mem_cons_of_mem _ (ih h)

theorem endCall_no_conn (uc : UserConnections) (u : Nat) (c : String)
    (h : mapGet uc.connections u = none) : uc.endCall u c = (uc, []) := by
  simp [UserConnections.endCall, h]

theorem endCall_no_call (uc : UserConnections) (u : Nat) (c : String)
    (conn : Conn) (h : mapGet uc.connections u = some conn)
    (h2 : mapGet conn.calls c = none) : uc.endCall u c = (uc, []) := by
  simp [UserConnections.endCall, h, h2]

theorem endCall_found_other (uc : UserConnections) (u : Nat) (c : String)
    (conn : Conn) (cd : CallData) (o : Conn)
    (h : mapGet uc.connections u = some conn)
    (h2 : mapGet conn.calls c = some cd)
    (ho : mapGet uc.connections cd.otherParticipantId = some o) :
    uc.endCall u c =
      ({ connections := mapSet uc.connections u
          { conn with calls := mapDelete conn.calls c } },
       [Emit.mk o.socket (Payload.callEnded u "REMOTE_ENDED")]) := by
  simp [UserConnections.endCall, h, h2, ho]

theorem endCall_found_none (uc : UserConnections) (u : Nat) (c : String)
    (conn : Conn) (cd : CallData)
    (h : mapGet uc.connections u = some conn)
    (h2 : mapGet conn.calls c = some cd)
    (ho : mapGet uc.connections cd.otherParticipantId = none) :
    uc.endCall u c =
      ({ connections := mapSet uc.connections u
          { conn with calls := mapDelete conn.calls c } }, []) := by
  simp [UserConnections.endCall, h, h2, ho]

theorem removeFold_acc_mono (userId : Nat)
    (todo : List (String × CallData)) :
    ∀ (uc : UserConnections) (acc : List Emit) (x : Emit),
      x ∈ acc → x ∈ (todo.foldl (removeStep userId) (uc, acc)).2 := by
  induction todo with
  | nil => intro uc acc x hx; simpa using hx
  | cons e rest ih =>
    intro uc acc x hx
    rw [List.foldl_cons]
    exact ih _ _ x (by simp [removeStep]; exact Or.inl hx)

theorem removeFold_mem (userId : Nat) (uc0 : UserConnections) (sock ts : Nat)
    (todo : List (String × CallData)) :
    ∀ (uc : UserConnections) (acc : List Emit),
      (∀ v, v ≠ userId → mapGet uc.connections v = mapGet uc0.connections v) →
      mapGet uc.connections userId = some (Conn.mk sock ts todo) →
      (mapGet uc0.connections userId).map Conn.socket = some sock →
      (todo.map Prod.fst).Nodup →
      ∀ e ∈ todo, ∀ other,
        mapGet uc0.connections e.2.otherParticipantId = some other →
        Emit.mk other.socket (Payload.callEnded userId "REMOTE_ENDED")
          ∈ (todo.foldl (removeStep userId) (uc, acc)).2 := by
  induction todo with
  | nil => intro uc acc _ _ _ _ e he; simp at he
  | cons en rest ih =>
    intro uc acc hframe hu h0 hnd e he other hother
    rw [List.map_cons] at hnd
    have hnd' := List.nodup_cons.mp hnd
    have hget : mapGet (Conn.mk sock ts (en :: rest)).calls en.1 = some en.2 := by
      simp [mapGet]
    have hdel : mapDelete (Conn.mk sock ts (en :: rest)).calls en.1 = rest := by
      simp [mapDelete, mapDelete_of_not_mem rest en.1 hnd'.1]
    -- advancing the fold by the head entry
    have hstep : ∀ emits, uc.endCall userId en.1 =
        ({ connections := mapSet uc.connections userId (Conn.mk sock ts rest) }, emits) →
        (en :: rest).foldl (removeStep userId) (uc, acc) =
          rest.foldl (removeStep userId)
            ({ connections := mapSet uc.connections userId (Conn.mk sock ts rest) },
             acc ++ emits) := by
      intro emits hend
      rw [List.foldl_cons]
      simp [removeStep, hend]
    have hframe' : ∀ v, v ≠ userId →
        mapGet (mapSet uc.connections userId (Conn.mk sock ts rest)) v =
          mapGet uc0.connections v := by
      intro v hv
      rw [mapGet_set_ne _ _ _ _ hv]
      exact hframe v hv
    have hu' : mapGet (mapSet uc.connections userId (Conn.mk sock ts rest)) userId =
        some (Conn.mk sock ts rest) := mapGet_set_self _ _ _
    -- compute the emissions of the head step
    rcases hcase : mapGet uc.connections en.2.otherParticipantId with _ | o
    · have hend := endCall_found_none uc userId en.1 (Conn.mk sock ts (en :: rest))
        en.2 hu hget hcase
      rw [hdel] at hend
      rw [hstep [] hend]
      rcases List.mem_cons.mp he with rfl | hmem
      · -- the head entry: its counterpart cannot be registered in uc0
        exfalso
        by_cases hq : e.2.otherParticipantId = userId
        · rw [hq, hu] at hcase
          exact Option.noConfusion hcase
        · rw [hframe _ hq, hother] at hcase
          exact Option.noConfusion hcase
      · exact ih _ _ hframe' hu' h0 hnd'.2 e hmem other hother
    · have hend := endCall_found_other uc userId en.1 (Conn.mk sock ts (en :: rest))
        en.2 o hu hget hcase
      rw [hdel] at hend
      rw [hstep _ hend]
      rcases List.mem_cons.mp he with rfl | hmem
      · -- the head entry: the recorded emission is the one claimed
        have hsock : o.socket = other.socket := by
          by_cases hq : e.2.otherParticipantId = userId
          · rw [hq, hu] at hcase
            injection hcase with hc
            rw [hq] at hother
            rw [hother] at h0
            simp only [Option.map_some', Option.some.injEq] at h0
            rw [← hc]
            exact h0.symm
          · rw [hframe _ hq, hother] at hcase
            injection hcase with hc
            rw [hc]
        refine removeFold_acc_mono userId rest _ _ _ ?_
        rw [← hsock]
        simp
      · exact ih _ _ hframe' hu' h0 hnd'.2 e hmem other hother

/-! ## Claims about the registry lifecycle -/

/-- C1: for a registered principal P whose connection holds call sessions,
remove(P) delivers to each still-registered counterpart a callEnded
notification with from = P and reason REMOTE_ENDED, and afterwards no entry
of P (hence none of its sessions) remains in the registry. -/
theorem c1_remove_cleanup_cascade (uc : UserConnections) (P : Nat) (conn : Conn)
    (h : mapGet uc.connections P = some conn)
    (hnd : (conn.calls.map Prod.fst).Nodup) :
    mapGet (uc.remove P).1.connections P = none ∧
    ∀ e ∈ conn.calls, ∀ other,
      mapGet uc.connections e.2.otherParticipantId = some other →
      Emit.mk other.socket (Payload.callEnded P "REMOTE_ENDED") ∈ (uc.remove P).2 := by
  have hre : uc.remove P =
      ({ connections :=
          mapDelete ((conn.calls.foldl (removeStep P) (uc, [])).1).connections P },
       (conn.calls.foldl (removeStep P) (uc, [])).2) := by
    simp [UserConnections.remove, h]
  constructor
  · rw [hre]
    exact mapGet_delete_self _ P
  · intro e he other hother
    rw [hre]
    exact removeFold_mem P uc conn.socket conn.timestamp conn.calls uc []
      (fun v hv => rfl) h (by rw [h]; rfl) hnd e he other hother

/-- Witness for C1: user 1 holds calls with users 2 and 3; removing 1 clears
its entry and notifies the sockets of 2 and 3. -/
theorem c1_witness :
    mapGet ucThree.connections 1 = some (Conn.mk 10 0
      [("c1", CallData.mk 2 "video" 5), ("c2", CallData.mk 3 "audio" 6)]) ∧
    (([("c1", CallData.mk 2 "video" 5),
       ("c2", CallData.mk 3 "audio" 6)].map Prod.fst).Nodup) ∧
    mapGet (ucThree.remove 1).1.connections 1 = none ∧
    Emit.mk 20 (Payload.callEnded 1 "REMOTE_ENDED") ∈ (ucThree.remove 1).2 ∧
    Emit.mk 30 (Payload.callEnded 1 "REMOTE_ENDED") ∈ (ucThree.remove 1).2 := by
  have h := c1_remove_cleanup_cascade ucThree 1 (Conn.mk 10 0
    [("c1", CallData.mk 2 "video" 5), ("c2", CallData.mk 3 "audio" 6)])
    (by decide) (by decide)
  refine ⟨by decide, by decide, h.1, ?_, ?_⟩
  · exact h.2 ("c1", CallData.mk 2 "video" 5) (by decide) (Conn.mk 20 0 []) (by decide)
  · exact h.2 ("c2", CallData.mk 3 "audio" 6) (by decide) (Conn.mk 30 0 []) (by decide)

/-- C5: registering the same principal twice leaves exactly one reachable
entry under it, holding the connection built from the second handle. -/
theorem c5_single_connection (uc : UserConnections) (P hd1 hd2 t1 t2 : Nat)
    (hnd : (uc.connections.map Prod.fst).Nodup) :
    countKey (((uc.add P hd1 t1).1.add P hd2 t2).1.connections) P = 1 ∧
    ((uc.add P hd1 t1).1.add P hd2 t2).1.get P = some (Conn.mk hd2 t2 []) := by
  constructor
  · exact countKey_set _ _ _ (mapSet_keys_nodup _ _ _ hnd)
  · exact mapGet_set_self _ _ _

/-- Witness for C5 on the empty registry. -/
theorem c5_witness :
    ((UserConnections.mk []).connections.map Prod.fst).Nodup ∧
    countKey ((((UserConnections.mk []).add 5 10 1).1.add 5 11 2).1.connections) 5 = 1 ∧
    (((UserConnections.mk []).add 5 10 1).1.add 5 11 2).1.get 5 =
      some (Conn.mk 11 2 []) := by
  have h := c5_single_connection (UserConnections.mk []) 5 10 11 1 2 (by decide)
  exact ⟨by decide, h.1, h.2⟩

/-- C6: removing an absent principal is a no-op, and a second remove right
after a first one changes no state and emits nothing. -/
theorem c6_remove_idempotent (uc : UserConnections) (P : Nat) :
    (mapGet uc.connections P = none → uc.remove P = (uc, [])) ∧
    (uc.remove P).1.remove P = ((uc.remove P).1, []) := by
  have habs : ∀ uc' : UserConnections, mapGet uc'.connections P = none →
      uc'.remove P = (uc', []) := by
    intro uc' h
    simp [UserConnections.remove, h]
  refine ⟨habs uc, ?_⟩
  rcases hcase : mapGet uc.connections P with _ | conn
  · rw [habs uc hcase]
    exact habs uc hcase
  · apply habs
    have hconn : (uc.remove P).1.connections =
        mapDelete ((conn.calls.foldl (removeStep P) (uc, [])).1).connections P := by
      simp [UserConnections.remove, hcase]
    rw [hconn]
    exact mapGet_delete_self _ P

/-- Witness for C6: absent principal 7 and a doubled removal of principal 1. -/
theorem c6_witness :
    mapGet ucTwo.connections 7 = none ∧
    ucTwo.remove 7 = (ucTwo, []) ∧
    (ucTwo.remove 1).1.remove 1 = ((ucTwo.remove 1).1, []) := by
  exact ⟨by decide, (c6_remove_idempotent ucTwo 7).1 (by decide),
    (c6_remove_idempotent ucTwo 1).2⟩

/-- C10: endCall acts only on calls stored in the invoking user's own call
set; when the call id is not there (in particular when it names a session
stored under another principal) the registry is unchanged and nothing is
emitted. -/
theorem c10_endCall_own_set (uc : UserConnections) (U : Nat) (C : String)
    (h : uc.getCall U C = none) :
    uc.endCall U C = (uc, []) := by
  unfold UserConnections.getCall at h
  rcases hcase : mapGet uc.connections U with _ | cU
  · exact endCall_no_conn uc U C hcase
  · rw [hcase] at h
    exact endCall_no_call uc U C cU hcase h

/-- Witness for C10: user 2 (the callee) invokes endCall with the call id of
the session stored under user 1; nothing changes and the caller's session
survives. -/
theorem c10_witness :
    ucCall.getCall 2 "1-2-100" = none ∧
    ucCall.endCall 2 "1-2-100" = (ucCall, []) ∧
    ucCall.getCall 1 "1-2-100" = some (CallData.mk 2 "video" 100) := by
  exact ⟨by decide, c10_endCall_own_set ucCall 2 "1-2-100" (by decide), by decide⟩

/-! ## Claims about call initiation and signaling relays -/

/-- Helper: answerCall never mutates the registry. -/
theorem onAnswerCall_state (u : UserConnections) (sid : Nat) (dd : AnswerData) :
    (onAnswerCall u sid dd).1 = u := by
  cases hh : mapGet u.connections dd.toField <;> simp [onAnswerCall, hh]

/-- C2 (amended): in the messages service a call initiation towards an
unregistered callee creates no session, leaves the registry unchanged, and
delivers callFailed with error USER_UNAVAILABLE to the caller; in the users
service it likewise changes nothing but emits no failure notice at all. -/
theorem c2_unreachable_callee (uc : UserConnections)
    (senderSocket senderId now : Nat) (data : CallUserData)
    (online : List (Nat × Nat)) (uid t : Nat) (offer : String)
    (h1 : mapGet uc.connections data.userToCall = none)
    (h2 : mapGet online t = none) :
    onCallUser uc senderSocket senderId now data =
      (uc, [Emit.mk senderSocket (Payload.callFailed "USER_UNAVAILABLE")]) ∧
    usersOnCallUser online uid t offer = [] := by
  constructor
  · simp [onCallUser, h1]
  · simp [usersOnCallUser, h2]

/-- Counterexample for C2 as stated: in the users service a call initiation
to the unregistered callee 2 delivers nothing to anyone; in particular no
call-failed notice reaches the initiating caller. -/
theorem c2_counterexample :
    usersOnCallUser [(1, 10)] 1 2 "sdp" = [] := by decide

/-- Witness for C2 at concrete inputs. -/
theorem c2_witness :
    mapGet ucTwo.connections 99 = none ∧
    mapGet ([(1, 10)] : List (Nat × Nat)) 99 = none ∧
    onCallUser ucTwo 10 1 100 (CallUserData.mk 99 "video" "sdp" 1) =
      (ucTwo, [Emit.mk 10 (Payload.callFailed "USER_UNAVAILABLE")]) ∧
    usersOnCallUser [(1, 10)] 1 99 "sdp" = [] := by
  have h := c2_unreachable_callee ucTwo 10 1 100 (CallUserData.mk 99 "video" "sdp" 1)
    [(1, 10)] 1 99 "sdp" (by decide) (by decide)
  exact ⟨by decide, by decide, h.1, h.2⟩

/-- C3 (amended): in a call initiated by A to B and answered by B, when A
then sends call-end carrying the session's call id, B receives callEnded
with from = A and reason REMOTE_ENDED, and the session is afterwards no
longer retrievable from the registry. -/
theorem c3_end_call_flow (uc : UserConnections) (A B : Nat) (cA cB : Conn)
    (now : Nat) (ct sd sig : String) (f tf : Nat) (r : Option String)
    (hA : mapGet uc.connections A = some cA)
    (hB : mapGet uc.connections B = some cB)
    (hAB : A ≠ B) :
    (onEndCall (onAnswerCall (onCallUser uc cA.socket A now
        (CallUserData.mk B ct sd f)).1 B (AnswerData.mk A sig)).1 A
        (EndCallData.mk (some (mintCallId A B now)) tf r)).2 =
      [Emit.mk cB.socket (Payload.callEnded A "REMOTE_ENDED")] ∧
    (onEndCall (onAnswerCall (onCallUser uc cA.socket A now
        (CallUserData.mk B ct sd f)).1 B (AnswerData.mk A sig)).1 A
        (EndCallData.mk (some (mintCallId A B now)) tf r)).1.getCall A
        (mintCallId A B now) = none := by
  have hs1 : (onCallUser uc cA.socket A now (CallUserData.mk B ct sd f)).1 =
      UserConnections.mk (mapSet uc.connections A
        (Conn.mk cA.socket cA.timestamp
          (mapSet cA.calls (mintCallId A B now) (CallData.mk B ct now)))) := by
    simp [onCallUser, hB, UserConnections.addCall, hA]
  have hoe : ∀ u : UserConnections,
      onEndCall u A (EndCallData.mk (some (mintCallId A B now)) tf r) =
        u.endCall A (mintCallId A B now) := fun u => rfl
  have hA2 : mapGet (mapSet uc.connections A
        (Conn.mk cA.socket cA.timestamp
          (mapSet cA.calls (mintCallId A B now) (CallData.mk B ct now)))) A =
      some (Conn.mk cA.socket cA.timestamp
        (mapSet cA.calls (mintCallId A B now) (CallData.mk B ct now))) :=
    mapGet_set_self _ _ _
  have hc2 : mapGet (Conn.mk cA.socket cA.timestamp
        (mapSet cA.calls (mintCallId A B now) (CallData.mk B ct now))).calls
        (mintCallId A B now) = some (CallData.mk B ct now) :=
    mapGet_set_self _ _ _
  have hoB : mapGet (mapSet uc.connections A
        (Conn.mk cA.socket cA.timestamp
          (mapSet cA.calls (mintCallId A B now) (CallData.mk B ct now)))) B =
      some cB := by
    rw [mapGet_set_ne _ _ _ _ (Ne.symm hAB)]
    exact hB
  have hend := endCall_found_other
    (UserConnections.mk (mapSet uc.connections A
      (Conn.mk cA.socket cA.timestamp
        (mapSet cA.calls (mintCallId A B now) (CallData.mk B ct now)))))
    A (mintCallId A B now)
    (Conn.mk cA.socket cA.timestamp
      (mapSet cA.calls (mintCallId A B now) (CallData.mk B ct now)))
    (CallData.mk B ct now) cB hA2 hc2 hoB
  constructor
  · rw [hs1, onAnswerCall_state, hoe, hend]
  · rw [hs1, onAnswerCall_state, hoe, hend]
    simp [UserConnections.getCall, mapGet_set_self, mapGet_delete_self]

/-- Counterexample for C3 as stated: in the concrete happy-path run the
reason delivered to B is REMOTE_ENDED, and no callEnded with reason NORMAL
is delivered. -/
theorem c3_counterexample :
    (onEndCall (onAnswerCall (onCallUser ucTwo 10 1 100
        (CallUserData.mk 2 "video" "sdp1" 1)).1 2 (AnswerData.mk 1 "sdp2")).1 1
        (EndCallData.mk (some "1-2-100") 0 none)).2 =
      [Emit.mk 20 (Payload.callEnded 1 "REMOTE_ENDED")] ∧
    Emit.mk 20 (Payload.callEnded 1 "NORMAL") ∉
      (onEndCall (onAnswerCall (onCallUser ucTwo 10 1 100
        (CallUserData.mk 2 "video" "sdp1" 1)).1 2 (AnswerData.mk 1 "sdp2")).1 1
        (EndCallData.mk (some "1-2-100") 0 none)).2 := by
  exact ⟨by decide, by decide⟩

/-- Witness for C3 at concrete inputs. -/
theorem c3_witness :
    mapGet ucTwo.connections 1 = some (Conn.mk 10 0 []) ∧
    mapGet ucTwo.connections 2 = some (Conn.mk 20 0 []) ∧
    (1 : Nat) ≠ 2 ∧
    (onEndCall (onAnswerCall (onCallUser ucTwo (Conn.mk 10 0 []).socket 1 100
        (CallUserData.mk 2 "video" "sdp1" 1)).1 2 (AnswerData.mk 1 "sdp2")).1 1
        (EndCallData.mk (some (mintCallId 1 2 100)) 0 none)).2 =
      [Emit.mk (Conn.mk 20 0 []).socket (Payload.callEnded 1 "REMOTE_ENDED")] ∧
    (onEndCall (onAnswerCall (onCallUser ucTwo (Conn.mk 10 0 []).socket 1 100
        (CallUserData.mk 2 "video" "sdp1" 1)).1 2 (AnswerData.mk 1 "sdp2")).1 1
        (EndCallData.mk (some (mintCallId 1 2 100)) 0 none)).1.getCall 1
        (mintCallId 1 2 100) = none := by
  have h := c3_end_call_flow ucTwo 1 2 (Conn.mk 10 0 []) (Conn.mk 20 0 []) 100
    "video" "sdp1" "sdp2" 1 0 none (by decide) (by decide) (by decide)
  exact ⟨by decide, by decide, by decide, h.1, h.2⟩

/-- C4 (amended): for a reachable callee, the users service delivers
incomingCall with from set to the authenticated caller id, while the
messages service delivers callIncoming whose from field is the
client-supplied data.from, not necessarily the caller's identity. -/
theorem c4_incoming_from_field (uc : UserConnections)
    (senderSocket senderId now : Nat) (data : CallUserData) (target : Conn)
    (online : List (Nat × Nat)) (uid t sockT : Nat) (offer : String)
    (h1 : mapGet uc.connections data.userToCall = some target)
    (h2 : mapGet online t = some sockT) :
    (onCallUser uc senderSocket senderId now data).2 =
      [Emit.mk target.socket (Payload.callIncoming
        (mintCallId senderId data.userToCall now) data.signalData
        data.fromField data.callType)] ∧
    usersOnCallUser online uid t offer =
      [UEmit.mk sockT (UPayload.incomingCall uid offer)] := by
  constructor
  · simp [onCallUser, h1]
  · simp [usersOnCallUser, h2]

/-- Counterexample for C4 as stated: the caller authenticated as principal 1
puts 999 into data.from, and the callee's callIncoming notification carries
fromID 999, not the caller's principal identity 1. -/
theorem c4_counterexample :
    (onCallUser ucTwo 10 1 100 (CallUserData.mk 2 "video" "sdp" 999)).2 =
      [Emit.mk 20 (Payload.callIncoming "1-2-100" "sdp" 999 "video")] ∧
    (999 : Nat) ≠ 1 := by
  exact ⟨by decide, by decide⟩

/-- Witness for C4 at concrete inputs. -/
theorem c4_witness :
    mapGet ucTwo.connections 2 = some (Conn.mk 20 0 []) ∧
    mapGet ([(2, 20)] : List (Nat × Nat)) 2 = some 20 ∧
    (onCallUser ucTwo 10 1 100 (CallUserData.mk 2 "video" "sdp" 1)).2 =
      [Emit.mk 20 (Payload.callIncoming "1-2-100" "sdp" 1 "video")] ∧
    usersOnCallUser [(2, 20)] 1 2 "offer" =
      [UEmit.mk 20 (UPayload.incomingCall 1 "offer")] := by
  have h := c4_incoming_from_field ucTwo 10 1 100 (CallUserData.mk 2 "video" "sdp" 1)
    (Conn.mk 20 0 []) [(2, 20)] 1 2 20 "offer" (by decide) (by decide)
  refine ⟨by decide, by decide, ?_, h.2⟩
  rw [h.1]
  decide

/-- C7: a sendMessage broadcast is delivered to the socket of every
registered connection other than the sender and never to the sender. -/
theorem c7_broadcast_exclusion (uc : UserConnections) (sockets : List Nat)
    (senderSocket : Nat) (msg : String)
    (hreg : ∀ entry ∈ uc.connections, entry.2.socket ∈ sockets) :
    (∀ u c, mapGet uc.connections u = some c → c.socket ≠ senderSocket →
      Emit.mk c.socket (Payload.newMessage msg) ∈
        onSendMessage sockets senderSocket msg) ∧
    (∀ e ∈ onSendMessage sockets senderSocket msg, e.target ≠ senderSocket) := by
  constructor
  · intro u c hget hne
    have hmem : c.socket ∈ sockets := hreg (u, c) (mapGet_mem _ _ _ hget)
    apply List.mem_map.mpr
    refine ⟨c.socket, ?_, rfl⟩
    rw [List.mem_filter]
    exact ⟨hmem, by simp [hne]⟩
  · intro e he
    rcases List.mem_map.mp he with ⟨t, ht, rfl⟩
    have hf := (List.mem_filter.mp ht).2
    simpa using hf

/-- Witness for C7 at concrete inputs. -/
theorem c7_witness :
    (∀ entry ∈ ucTwo.connections, entry.2.socket ∈ [10, 20, 30]) ∧
    Emit.mk 20 (Payload.newMessage "hi") ∈ onSendMessage [10, 20, 30] 10 "hi" ∧
    ∀ e ∈ onSendMessage [10, 20, 30] 10 "hi", e.target ≠ 10 := by
  have h := c7_broadcast_exclusion ucTwo [10, 20, 30] 10 "hi" (by decide)
  exact ⟨by decide, h.1 2 (Conn.mk 20 0 []) (by decide) (by decide), h.2⟩

/-- C8: answer and ice-candidate relays of both services, aimed at an
unregistered target, emit nothing to anyone and leave all state unchanged. -/
theorem c8_silent_drop (uc : UserConnections) (senderId : Nat)
    (d1 : AnswerData) (d2 : CandidateData)
    (online : List (Nat × Nat)) (uid t : Nat) (ans cand : String)
    (h1 : mapGet uc.connections d1.toField = none)
    (h2 : mapGet uc.connections d2.toField = none)
    (h3 : mapGet online t = none) :
    onAnswerCall uc senderId d1 = (uc, []) ∧
    onCallCandidate uc senderId d2 = (uc, []) ∧
    usersOnAnswerCall online uid t ans = [] ∧
    usersOnIceCandidate online uid t cand = [] := by
  refine ⟨?_, ?_, ?_, ?_⟩
  · simp [onAnswerCall, h1]
  · simp [onCallCandidate, h2]
  · simp [usersOnAnswerCall, h3]
  · simp [usersOnIceCandidate, h3]

/-- Witness for C8 at concrete inputs. -/
theorem c8_witness :
    mapGet ucTwo.connections 99 = none ∧
    mapGet ([(1, 10)] : List (Nat × Nat)) 99 = none ∧
    onAnswerCall ucTwo 1 (AnswerData.mk 99 "sdp") = (ucTwo, []) ∧
    onCallCandidate ucTwo 1 (CandidateData.mk 99 "cand") = (ucTwo, []) ∧
    usersOnAnswerCall [(1, 10)] 1 99 "sdp" = [] ∧
    usersOnIceCandidate [(1, 10)] 1 99 "cand" = [] := by
  have h := c8_silent_drop ucTwo 1 (AnswerData.mk 99 "sdp")
    (CandidateData.mk 99 "cand") [(1, 10)] 1 99 "sdp" "cand"
    (by decide) (by decide) (by decide)
  exact ⟨by decide, by decide, h.1, h.2.1, h.2.2.1, h.2.2.2⟩

/-- C9: for the answerCall, callCandidate and endCall-fallback relays, the
from field of every delivered event equals the authenticated sender id,
whatever identity-like data the client put in the payload; two runs towards
the same target deliver the same from values. -/
theorem c9_from_is_sender (uc : UserConnections) (senderId : Nat)
    (d1 : AnswerData) (d2 : CandidateData) (d3 : EndCallData) :
    (∀ e ∈ (onAnswerCall uc senderId d1).2, emitFromId e.payload = some senderId) ∧
    (∀ e ∈ (onCallCandidate uc senderId d2).2, emitFromId e.payload = some senderId) ∧
    (d3.callId = none →
      ∀ e ∈ (onEndCall uc senderId d3).2, emitFromId e.payload = some senderId) ∧
    (∀ d1' : AnswerData, d1'.toField = d1.toField →
      (onAnswerCall uc senderId d1).2.map (fun e => emitFromId e.payload) =
        (onAnswerCall uc senderId d1').2.map (fun e => emitFromId e.payload)) := by
  refine ⟨?_, ?_, ?_, ?_⟩
  · intro e he
    rcases hh : mapGet uc.connections d1.toField with _ | tc
    · simp [onAnswerCall, hh] at he
    · simp [onAnswerCall, hh] at he
      simp [he, emitFromId]
  · intro e he
    rcases hh : mapGet uc.connections d2.toField with _ | tc
    · simp [onCallCandidate, hh] at he
    · simp [onCallCandidate, hh] at he
      simp [he, emitFromId]
  · intro hnone e he
    rcases hh : mapGet uc.connections d3.toField with _ | tc
    · simp [onEndCall, hnone, hh] at he
    · simp [onEndCall, hnone, hh] at he
      simp [he, emitFromId]
  · intro d1' heq
    rcases hh : mapGet uc.connections d1.toField with _ | tc
    · have hh' : mapGet uc.connections d1'.toField = none := by rw [heq]; exact hh
      simp [onAnswerCall, hh, hh']
    · have hh' : mapGet uc.connections d1'.toField = some tc := by rw [heq]; exact hh
      simp [onAnswerCall, hh, hh', emitFromId]

/-- Witness for C9 at concrete inputs. -/
theorem c9_witness :
    (EndCallData.mk none 2 none).callId = none ∧
    (∀ e ∈ (onEndCall ucTwo 1 (EndCallData.mk none 2 none)).2,
      emitFromId e.payload = some 1) ∧
    (AnswerData.mk 2 "idA").toField = (AnswerData.mk 2 "idB").toField ∧
    (onAnswerCall ucTwo 1 (AnswerData.mk 2 "idB")).2.map
        (fun e => emitFromId e.payload) =
      (onAnswerCall ucTwo 1 (AnswerData.mk 2 "idA")).2.map
        (fun e => emitFromId e.payload) := by
  have h := c9_from_is_sender ucTwo 1 (AnswerData.mk 2 "idB")
    (CandidateData.mk 2 "c") (EndCallData.mk none 2 none)
  exact ⟨rfl, h.2.2.1 rfl, rfl, h.2.2.2 (AnswerData.mk 2 "idA") rfl⟩
